import Mathlib

/-!
Verification development for the PolicyPal repository.

The embedded code is the server-action / persistence layer:
- `handleQuery` (src/unnamed/part_001): validates the form input, calls the
  FastAPI backend, attributes a policy area by comparing context-list lengths,
  writes the query to history, and returns the result.
- `addQueryToHistory` and `getUserQueryHistory` (src/unnamed/part_002): the
  current Firestore persistence layer (sources normalization, truthiness-gated
  debate-flow fields, in-memory sort of the history by createdAt descending).
- The legacy `getUserQueryHistory` (src/src/lib/db.ts) delegates ordering to
  the external store via orderBy(createdAt, desc); it is specified relationally.
- The backend chunker (backend/app/services/document_processor.py) is not part
  of the provided sources, so it is modelled from the specification text.

JavaScript conventions embedded explicitly: a form value is `Option String`
(null vs. string); `!s` on a string is the emptiness test; `if (x)` on an
optional string field is "present and non-empty"; `if (x)` on an array field
is "present" (every array, even empty, is truthy); `x?.length || 0` is 0 when
`x` is undefined; `Array.prototype.sort` with a numeric comparator is a stable
sort by the comparator key.
-/

/-- Topic areas, from src/src/lib/types.ts: `type PolicyArea = 'IT' | 'HR' | 'General'`. -/
inductive PolicyArea where
  | IT
  | HR
  | General
deriving DecidableEq, Repr

/-- One persisted history record (Firestore document of the `queries` collection),
with the document id attached as in `{ id: doc.id, ...doc.data() }`.
`createdAt` is the timestamp in milliseconds (`Timestamp.toMillis`); `none`
models a record lacking the field. The four debate-flow fields are optional. -/
structure QueryRecord where
  id : String
  userId : String
  question : String
  answer : String
  policyArea : PolicyArea
  sources : List String
  createdAt : Option Nat
  itExpertResponse : Option String
  hrExpertResponse : Option String
  itContext : Option (List String)
  hrContext : Option (List String)
deriving DecidableEq, Repr

/-- The `debateFlow` optional argument of `addQueryToHistory`. -/
structure DebateFlow where
  itExpertResponse : Option String
  hrExpertResponse : Option String
  itContext : Option (List String)
  hrContext : Option (List String)
deriving DecidableEq, Repr

/-- JavaScript truthiness of an optional string: present and non-empty. -/
def truthyStr (o : Option String) : Bool :=
  !(o.getD "" == "")

/-- `Array.isArray(sources) ? sources : (sources ? [sources] : [])`
from addQueryToHistory (src/unnamed/part_002, line 32). -/
def normalizeSources (sources : Sum String (List String)) : List String :=
  match sources with
  | Sum.inr l => l
  | Sum.inl s => if s == "" then [] else [s]

/-- The Firestore document body built by `addQueryToHistory`
(src/unnamed/part_002, lines 27-42), before the store assigns an id.
A debate-flow field enters the document only when its value is truthy:
non-empty string for the expert responses, any present array for the contexts. -/
def buildDocData (userId question answer : String) (policyArea : PolicyArea)
    (sources : Sum String (List String)) (debateFlow : Option DebateFlow)
    (now : Nat) (newId : String) : QueryRecord :=
  { id := newId
    userId := userId
    question := question
    answer := answer
    policyArea := policyArea
    sources := normalizeSources sources
    createdAt := some now
    itExpertResponse :=
      match debateFlow with
      | none => none
      | some df => if truthyStr df.itExpertResponse then df.itExpertResponse else none
    hrExpertResponse :=
      match debateFlow with
      | none => none
      | some df => if truthyStr df.hrExpertResponse then df.hrExpertResponse else none
    itContext :=
      match debateFlow with
      | none => none
      | some df => df.itContext
    hrContext :=
      match debateFlow with
      | none => none
      | some df => df.hrContext }

/-- `addQueryToHistory` (src/unnamed/part_002, lines 13-50): appends the built
document to the `queries` collection. `writeOk` models whether the Firestore
`addDoc` call succeeds; on failure the function throws
"Failed to save query to history." (lines 46-49). On success it returns the
new store together with the new document id. -/
def addQueryToHistory (st : List QueryRecord) (newId : String) (writeOk : Bool)
    (userId question answer : String) (policyArea : PolicyArea)
    (sources : Sum String (List String)) (debateFlow : Option DebateFlow)
    (now : Nat) : Except String (List QueryRecord × String) :=
  if writeOk then
    Except.ok (st ++ [buildDocData userId question answer policyArea sources debateFlow now newId], newId)
  else
    Except.error "Failed to save query to history."

/-- The JSON body of a successful backend `/api/query` response, as read by
`handleQuery`. Every field other than `answer` may be absent. -/
structure BackendResponse where
  answer : String
  sources : Option (List String)
  it_expert_response : Option String
  hr_expert_response : Option String
  it_context : Option (List String)
  hr_context : Option (List String)
deriving DecidableEq, Repr

/-- Outcome of the fetch to the backend: a parsed success body, or a thrown
error (non-ok status or network failure) carrying the message. -/
inductive BackendOutcome where
  | ok (r : BackendResponse)
  | fail (msg : String)
deriving DecidableEq, Repr

/-- `data.it_context?.length || 0` (src/unnamed/part_001, line 111). -/
def itContextLength (r : BackendResponse) : Nat :=
  (r.it_context.map List.length).getD 0

/-- `data.hr_context?.length || 0` (src/unnamed/part_001, line 112). -/
def hrContextLength (r : BackendResponse) : Nat :=
  (r.hr_context.map List.length).getD 0

/-- The policy-area attribution of `handleQuery`
(src/unnamed/part_001, lines 113-118). -/
def attributedPolicyArea (r : BackendResponse) : PolicyArea :=
  if itContextLength r > hrContextLength r ∧ itContextLength r > 0 then
    PolicyArea.IT
  else if hrContextLength r > itContextLength r ∧ hrContextLength r > 0 then
    PolicyArea.HR
  else
    PolicyArea.General

/-- The `QueryResult` interface of src/unnamed/part_001, lines 60-67. -/
structure QueryResult where
  question : String
  answer : String
  policyArea : PolicyArea
  sources : List String
  it_context : Option (List String)
  hr_context : Option (List String)
deriving DecidableEq, Repr

/-- The `QueryFormState` returned by `handleQuery` (src/unnamed/part_001, lines 69-72). -/
structure QueryFormState where
  result : Option QueryResult
  error : Option String
deriving DecidableEq, Repr

/-- External behaviour of one `handleQuery` invocation: the backend outcome,
whether the Firestore write succeeds, the id the store would assign, and the
current time (`Timestamp.now()` in milliseconds). -/
structure Env where
  backend : BackendOutcome
  writeOk : Bool
  newId : String
  now : Nat
deriving DecidableEq, Repr

/-- Observable outcome of `handleQuery`: the returned form state, whether a
backend request was issued, and the history store after the call. -/
structure HandleQueryOutput where
  state : QueryFormState
  backendCalled : Bool
  store : List QueryRecord
deriving DecidableEq, Repr

/-- `e.message || 'An unexpected error occurred.'` (src/unnamed/part_001, line 152). -/
def catchMessage (msg : String) : String :=
  if msg == "" then "An unexpected error occurred." else msg

/-- `handleQuery` (src/unnamed/part_001, lines 74-155). Validation happens
before the fetch; the fetch, the history write and the success return share
one try/catch, so a throw anywhere in the block yields `result: null` with
the thrown message. -/
def handleQuery (env : Env) (st : List QueryRecord)
    (question userId : Option String) : HandleQueryOutput :=
  if truthyStr question = false then
    { state := { result := none, error := some "Please enter a question." }
      backendCalled := false
      store := st }
  else if truthyStr userId = false then
    { state := { result := none, error := some "You must be logged in to ask a question." }
      backendCalled := false
      store := st }
  else
    let q := question.getD ""
    let u := userId.getD ""
    match env.backend with
    | BackendOutcome.fail msg =>
        { state := { result := none, error := some (catchMessage msg) }
          backendCalled := true
          store := st }
    | BackendOutcome.ok data =>
        let policyArea := attributedPolicyArea data
        match addQueryToHistory st env.newId env.writeOk u q data.answer policyArea
            (Sum.inr (data.sources.getD []))
            (some { itExpertResponse := data.it_expert_response
                    hrExpertResponse := data.hr_expert_response
                    itContext := data.it_context
                    hrContext := data.hr_context })
            env.now with
        | Except.error msg =>
            { state := { result := none, error := some (catchMessage msg) }
              backendCalled := true
              store := st }
        | Except.ok (st2, _) =>
            { state :=
                { result := some
                    { question := q
                      answer := data.answer
                      policyArea := policyArea
                      sources := data.sources.getD []
                      it_context := data.it_context
                      hr_context := data.hr_context }
                  error := none }
              backendCalled := true
              store := st2 }

/-- The records of the `queries` collection belonging to one user:
`where('userId', '==', userId)`. -/
def userRecords (st : List QueryRecord) (uid : String) : List QueryRecord :=
  st.filter (fun q => q.userId == uid)

/-- The sort key of the in-memory sort:
`a.createdAt?.toMillis() || 0` (src/unnamed/part_002, lines 70-71). -/
def keyQ (q : QueryRecord) : Nat :=
  q.createdAt.getD 0

/-- The ordering of the comparator `(a, b) => bTime - aTime`: descending by key. -/
def histR (a b : QueryRecord) : Prop :=
  keyQ b ≤ keyQ a

instance : DecidableRel histR := fun a b => by
  unfold histR; infer_instance

instance : IsTotal QueryRecord histR :=
  ⟨fun a b => le_total (keyQ b) (keyQ a)⟩

instance : IsTrans QueryRecord histR :=
  ⟨fun _ _ _ hab hbc => le_trans hbc hab⟩

/-- `getUserQueryHistory` (src/unnamed/part_002, lines 53-80): fetch the
documents matching the userId filter (snapshot iteration order = store order),
then stably sort in memory by `createdAt` descending, missing treated as 0.
The stable `Array.prototype.sort` is embedded as insertion sort on `histR`. -/
def getUserQueryHistory (st : List QueryRecord) (uid : String) : List QueryRecord :=
  List.insertionSort histR (userRecords st uid)

/-- Modelled from the spec: the legacy `getUserQueryHistory` (src/src/lib/db.ts,
lines 38-56) asks the external store for the records of the user ordered by
`createdAt` descending (`orderBy('createdAt', 'desc')`); the store itself is
outside the repository, so its answer is specified relationally: any
permutation of the user's records that is sorted by `createdAt` descending. -/
def legacyGetUserQueryHistorySpec (st : List QueryRecord) (uid : String)
    (out : List QueryRecord) : Prop :=
  out.Perm (userRecords st uid) ∧ out.Pairwise histR

instance (st : List QueryRecord) (uid : String) (out : List QueryRecord) :
    Decidable (legacyGetUserQueryHistorySpec st uid out) := by
  unfold legacyGetUserQueryHistorySpec
  infer_instance

/-! ## Chunker, modelled from the spec

The chunker lives in the backend (backend/app/services/document_processor.py),
which is not among the provided sources; only the surrounding documentation
describes it. It is therefore modelled from the specification text (section
4.1): split primarily at sentence boundaries; hard-split any sentence longer
than `maxLen` at the character limit; accumulate sentences into a running
segment, emitting the segment when the next piece would make it exceed
`maxLen`; each new segment repeats the trailing `overlap` characters of the
previous segment; whitespace-only input yields an empty sequence. Text is a
`List Char`. -/

/-- Sentence-ending characters for the sentence-aware split. -/
def isSentenceEnd (c : Char) : Bool :=
  c == '.' || c == '!' || c == '?'

/-- Modelled from the spec: split the text after each sentence-ending
character, keeping every character (delimiters and inter-sentence whitespace
stay inside the pieces, so the pieces concatenate back to the input).
`acc` holds the characters of the current sentence in reverse. -/
def splitSentencesAux (acc : List Char) : List Char → List (List Char)
  | [] => if acc.isEmpty then [] else [acc.reverse]
  | c :: rest =>
      if isSentenceEnd c then
        (acc.reverse ++ [c]) :: splitSentencesAux [] rest
      else
        splitSentencesAux (c :: acc) rest

/-- Modelled from the spec: the sentence split of the chunker. -/
def splitSentences (text : List Char) : List (List Char) :=
  splitSentencesAux [] text

/-- Modelled from the spec: a sentence longer than `maxLen` is hard-split at
the character limit; shorter sentences pass through whole. -/
def hardSplitOne (maxLen : Nat) (s : List Char) : List (List Char) :=
  if _hml : maxLen = 0 then [s]
  else if s.length ≤ maxLen then [s]
  else s.take maxLen :: hardSplitOne maxLen (s.drop maxLen)
termination_by s.length
decreasing_by
  simp only [List.length_drop]
  omega

/-- Modelled from the spec: hard-split every oversized sentence. -/
def hardSplit (maxLen : Nat) (sentences : List (List Char)) : List (List Char) :=
  sentences.flatMap (hardSplitOne maxLen)

/-- Modelled from the spec: a running segment accumulates pieces until adding
the next piece would exceed `maxLen`, at which point the segment is emitted. -/
def packAux (maxLen : Nat) (cur : List Char) : List (List Char) → List (List Char)
  | [] => if cur.isEmpty then [] else [cur]
  | p :: rest =>
      if cur.isEmpty then
        packAux maxLen p rest
      else if cur.length + p.length ≤ maxLen then
        packAux maxLen (cur ++ p) rest
      else
        cur :: packAux maxLen p rest

/-- Modelled from the spec: group the hard-split sentences into segments. -/
def packPieces (maxLen : Nat) (pieces : List (List Char)) : List (List Char) :=
  packAux maxLen [] pieces

/-- The trailing `n` characters of a segment. -/
def takeRight (n : Nat) (l : List Char) : List Char :=
  l.drop (l.length - n)

/-- Modelled from the spec: every segment after the first is prefixed with the
trailing `overlap` characters of the previous emitted segment. `prev` is the
previous emitted chunk. -/
def addOverlapsGo (overlap : Nat) (prev : List Char) : List (List Char) → List (List Char)
  | [] => [prev]
  | s :: rest => prev :: addOverlapsGo overlap (takeRight overlap prev ++ s) rest

/-- Modelled from the spec: add the overlap prefixes to the segment sequence. -/
def addOverlaps (overlap : Nat) : List (List Char) → List (List Char)
  | [] => []
  | s :: rest => addOverlapsGo overlap s rest

/-- Modelled from the spec: the chunker
`chunk(text, maxLen, overlap) -> ordered sequence of chunk strings` of the
absent backend document processor. Degenerate input (empty or
whitespace-only) yields an empty sequence; otherwise sentence-aware split,
hard-split of oversized sentences, packing into segments of at most `maxLen`,
and overlap prefixes. -/
def chunkText (text : List Char) (maxLen overlap : Nat) : List (List Char) :=
  if text.all Char.isWhitespace then []
  else addOverlaps overlap (packPieces maxLen (hardSplit maxLen (splitSentences text)))

/-! ## Derived relations and sample data -/

/-- The strict version of the history ordering: strictly larger key first. -/
def histRStrict (a b : QueryRecord) : Prop :=
  keyQ b < keyQ a

instance : IsAntisymm QueryRecord histRStrict :=
  ⟨fun _ _ h1 h2 => absurd (lt_trans h1 h2) (lt_irrefl _)⟩

/-- The debate-flow group invariant claimed by the spec for persisted records:
per area, the expert-response text and the context list are present together
(the all-absent legacy record is the case where both sides of both equations
are `false`). -/
def debateGroupInvariant (d : QueryRecord) : Prop :=
  d.itExpertResponse.isSome = d.itContext.isSome
  ∧ d.hrExpertResponse.isSome = d.hrContext.isSome

instance (d : QueryRecord) : Decidable (debateGroupInvariant d) := by
  unfold debateGroupInvariant
  infer_instance

/-- Sample history record: id "a", user "u", createdAt 5 ms. -/
def recA : QueryRecord :=
  ⟨"a", "u", "q1", "ans1", PolicyArea.IT, [], some 5, none, none, none, none⟩

/-- Sample history record: id "b", user "u", createdAt 5 ms (tied with `recA`). -/
def recB : QueryRecord :=
  ⟨"b", "u", "q2", "ans2", PolicyArea.HR, [], some 5, none, none, none, none⟩

/-- Sample history record: id "c", user "u", createdAt 3 ms. -/
def recC : QueryRecord :=
  ⟨"c", "u", "q3", "ans3", PolicyArea.General, [], some 3, none, none, none, none⟩

/-- Sample backend response with no optional fields. -/
def respA : BackendResponse :=
  ⟨"A", none, none, none, none, none⟩

/-- Sample environment: backend succeeds with `respA`, history write succeeds. -/
def envSample : Env :=
  ⟨BackendOutcome.ok respA, true, "id1", 5⟩

/-- Sample backend response whose IT context (2 snippets) dominates HR (1). -/
def respIT1 : BackendResponse :=
  ⟨"ans one", some ["f1"], some "it resp", none, some ["ctx a", "ctx b"], some ["h1"]⟩

/-- A second response with entirely different texts but the same context-list
lengths as `respIT1` (IT 2, HR 1). -/
def respIT2 : BackendResponse :=
  ⟨"other answer", none, none, some "hr text", some ["different", "snippets"], some ["zz"]⟩

/-- Environment around `respIT1`. -/
def envIT1 : Env :=
  ⟨BackendOutcome.ok respIT1, true, "idA", 10⟩

/-- Environment around `respIT2`. -/
def envIT2 : Env :=
  ⟨BackendOutcome.ok respIT2, true, "idB", 20⟩

/-- Sample document text "Hi. World" as a character list. -/
def sampleText : List Char :=
  ['H', 'i', '.', ' ', 'W', 'o', 'r', 'l', 'd']

/-! ## Helper lemmas -/

theorem splitSentencesAux_flatten : ∀ (l acc : List Char),
    (splitSentencesAux acc l).flatten = acc.reverse ++ l
  | [], acc => by
    simp only [splitSentencesAux]
    by_cases h : acc.isEmpty
    · simp [h, List.isEmpty_iff.mp h]
    · simp [h]
  | c :: rest, acc => by
    simp only [splitSentencesAux]
    by_cases h : isSentenceEnd c
    · simp [h, splitSentencesAux_flatten rest []]
    · simp [h, splitSentencesAux_flatten rest (c :: acc)]

theorem splitSentences_flatten (text : List Char) :
    (splitSentences text).flatten = text := by
  simpa [splitSentences] using splitSentencesAux_flatten text []

theorem hardSplitOne_flatten (maxLen : Nat) (s : List Char) :
    (hardSplitOne maxLen s).flatten = s := by
  rw [hardSplitOne]
  split
  · simp
  · split
    · simp
    · have ih := hardSplitOne_flatten maxLen (s.drop maxLen)
      simp [ih]
termination_by s.length
decreasing_by simp only [List.length_drop]; omega

theorem hardSplitOne_length_le (maxLen : Nat) (s : List Char) (h : maxLen ≠ 0) :
    ∀ p ∈ hardSplitOne maxLen s, p.length ≤ maxLen := by
  rw [hardSplitOne]
  split
  · omega
  · split
    · intro p hp
      simp only [List.mem_singleton] at hp
      subst hp
      omega
    · intro p hp
      rcases List.mem_cons.mp hp with rfl | hp'
      · simp
      · exact hardSplitOne_length_le maxLen (s.drop maxLen) h p hp'
termination_by s.length
decreasing_by simp only [List.length_drop]; omega

theorem hardSplit_flatten (maxLen : Nat) (ss : List (List Char)) :
    (hardSplit maxLen ss).flatten = ss.flatten := by
  induction ss with
  | nil => simp [hardSplit]
  | cons s ss ih =>
    simp only [hardSplit, List.flatMap_cons, List.flatten_append] at *
    simp [hardSplitOne_flatten, ih]

theorem packAux_flatten (maxLen : Nat) : ∀ (ps : List (List Char)) (cur : List Char),
    (packAux maxLen cur ps).flatten = cur ++ ps.flatten
  | [], cur => by
    simp only [packAux]
    by_cases h : cur.isEmpty
    · simp [h, List.isEmpty_iff.mp h]
    · simp [h]
  | p :: rest, cur => by
    simp only [packAux]
    by_cases h : cur.isEmpty
    · rw [if_pos h, packAux_flatten maxLen rest p]
      simp [List.isEmpty_iff.mp h]
    · rw [if_neg h]
      by_cases h2 : cur.length + p.length ≤ maxLen
      · rw [if_pos h2, packAux_flatten maxLen rest (cur ++ p)]
        simp
      · rw [if_neg h2]
        simp [packAux_flatten maxLen rest p]

theorem packPieces_flatten (maxLen : Nat) (ps : List (List Char)) :
    (packPieces maxLen ps).flatten = ps.flatten := by
  simp [packPieces, packAux_flatten]

theorem addOverlapsGo_sum (overlap : Nat) : ∀ (rest : List (List Char)) (prev : List Char),
    prev.length + (rest.map List.length).sum
      ≤ ((addOverlapsGo overlap prev rest).map List.length).sum
  | [], prev => by simp [addOverlapsGo]
  | s :: rest, prev => by
    have ih := addOverlapsGo_sum overlap rest (takeRight overlap prev ++ s)
    simp only [addOverlapsGo, List.map_cons, List.sum_cons, List.length_append] at *
    omega

theorem addOverlapsGo_cover (overlap : Nat) :
    ∀ (rest : List (List Char)) (prev : List Char) (c : Char),
    (c ∈ prev ∨ ∃ s ∈ rest, c ∈ s) →
    ∃ ch ∈ addOverlapsGo overlap prev rest, c ∈ ch
  | [], prev, c, h => by
    rcases h with h | ⟨s, hs, _⟩
    · exact ⟨prev, by simp [addOverlapsGo], h⟩
    · simp at hs
  | s :: rest, prev, c, h => by
    rcases h with h | ⟨t, ht, hc⟩
    · exact ⟨prev, by simp [addOverlapsGo], h⟩
    · rcases List.mem_cons.mp ht with rfl | ht'
      · obtain ⟨ch, hch, hcc⟩ :=
          addOverlapsGo_cover overlap rest (takeRight overlap prev ++ t) c
            (Or.inl (List.mem_append_right _ hc))
        exact ⟨ch, by simp [addOverlapsGo, hch], hcc⟩
      · obtain ⟨ch, hch, hcc⟩ :=
          addOverlapsGo_cover overlap rest (takeRight overlap prev ++ s) c
            (Or.inr ⟨t, ht', hc⟩)
        exact ⟨ch, by simp [addOverlapsGo, hch], hcc⟩

theorem chunkText_segments_flatten (text : List Char) (maxLen : Nat) :
    (packPieces maxLen (hardSplit maxLen (splitSentences text))).flatten = text := by
  rw [packPieces_flatten, hardSplit_flatten, splitSentences_flatten]

theorem chunkText_sum_ge (text : List Char) (maxLen overlap : Nat)
    (hws : text.all Char.isWhitespace = false) :
    text.length ≤ ((chunkText text maxLen overlap).map List.length).sum := by
  unfold chunkText
  rw [hws]
  simp only [Bool.false_eq_true, if_false]
  have hj := chunkText_segments_flatten text maxLen
  have hsum : ∀ segs : List (List Char),
      (segs.map List.length).sum ≤ ((addOverlaps overlap segs).map List.length).sum := by
    intro segs
    cases segs with
    | nil => simp [addOverlaps]
    | cons s rest =>
      simp only [addOverlaps, List.map_cons, List.sum_cons]
      exact addOverlapsGo_sum overlap rest s
  calc text.length
      = ((packPieces maxLen (hardSplit maxLen (splitSentences text))).map List.length).sum := by
        rw [← List.length_flatten, hj]
    _ ≤ _ := hsum _

theorem chunkText_cover (text : List Char) (maxLen overlap : Nat)
    (hws : text.all Char.isWhitespace = false)
    (c : Char) (hc : c ∈ text) :
    ∃ ch ∈ chunkText text maxLen overlap, c ∈ ch := by
  unfold chunkText
  rw [hws]
  simp only [Bool.false_eq_true, if_false]
  have hj := chunkText_segments_flatten text maxLen
  have hc2 : c ∈ (packPieces maxLen (hardSplit maxLen (splitSentences text))).flatten := by
    rw [hj]; exact hc
  obtain ⟨s, hs, hcs⟩ := List.mem_flatten.mp hc2
  cases hsegs : packPieces maxLen (hardSplit maxLen (splitSentences text)) with
  | nil => rw [hsegs] at hs; simp at hs
  | cons s0 rest =>
    rw [hsegs] at hs
    simp only [addOverlaps]
    rcases List.mem_cons.mp hs with rfl | hs'
    · exact addOverlapsGo_cover overlap rest s c (Or.inl hcs)
    · exact addOverlapsGo_cover overlap rest s0 c (Or.inr ⟨s, hs', hcs⟩)

theorem attributedPolicyArea_eq_of_lengths (r1 r2 : BackendResponse)
    (hit : itContextLength r1 = itContextLength r2)
    (hhr : hrContextLength r1 = hrContextLength r2) :
    attributedPolicyArea r1 = attributedPolicyArea r2 := by
  unfold attributedPolicyArea
  rw [hit, hhr]

theorem handleQuery_success (env : Env) (st : List QueryRecord) (q u : String)
    (r : BackendResponse) (hq : q ≠ "") (hu : u ≠ "")
    (hb : env.backend = BackendOutcome.ok r) (hw : env.writeOk = true) :
    handleQuery env st (some q) (some u) =
      { state :=
          { result := some
              { question := q
                answer := r.answer
                policyArea := attributedPolicyArea r
                sources := r.sources.getD []
                it_context := r.it_context
                hr_context := r.hr_context }
            error := none }
        backendCalled := true
        store := st ++ [buildDocData u q r.answer (attributedPolicyArea r)
          (Sum.inr (r.sources.getD []))
          (some { itExpertResponse := r.it_expert_response
                  hrExpertResponse := r.hr_expert_response
                  itContext := r.it_context
                  hrContext := r.hr_context }) env.now env.newId] } := by
  have hq' : (q == "") = false := by simpa using hq
  have hu' : (u == "") = false := by simpa using hu
  unfold handleQuery
  rw [hb]
  simp [truthyStr, hq', hu', addQueryToHistory, hw]

theorem ifTruthy_isSome (o : Option String) :
    (if truthyStr o then o else none).isSome = truthyStr o := by
  cases o with
  | none => simp [truthyStr]
  | some s => by_cases hs : s = "" <;> simp [truthyStr, hs]

/-! ## Claims -/

/-- C1: the spec requires that an answer already computed by the backend is
still returned when the history write fails. The code violates this: the
history write shares the try/catch of the backend call, so when the backend
succeeds (answer "A") and `addQueryToHistory` throws, `handleQuery` returns
`result: null` with the persistence error — the computed answer is discarded. -/
theorem C1_history_failure_discards_answer :
    (handleQuery { backend := BackendOutcome.ok respA, writeOk := false,
                   newId := "id1", now := 5 } [] (some "q") (some "u")).state
      = { result := none, error := some "Failed to save query to history." }
    ∧ respA.answer = "A" := by
  decide

/-- C2: the attributed policy area is determined by the two effective context
lengths (missing list = length 0, by `itContextLength`/`hrContextLength`):
IT exactly when the IT list is strictly longer and non-empty, HR exactly when
the HR list is strictly longer and non-empty, General in every other case. -/
theorem C2_policy_area_by_lengths (r : BackendResponse) :
    (attributedPolicyArea r = PolicyArea.IT
      ↔ hrContextLength r < itContextLength r ∧ 0 < itContextLength r)
    ∧ (attributedPolicyArea r = PolicyArea.HR
      ↔ itContextLength r < hrContextLength r ∧ 0 < hrContextLength r)
    ∧ (attributedPolicyArea r = PolicyArea.General
      ↔ ¬(hrContextLength r < itContextLength r ∧ 0 < itContextLength r)
        ∧ ¬(itContextLength r < hrContextLength r ∧ 0 < hrContextLength r)) := by
  unfold attributedPolicyArea
  split_ifs with h1 h2 <;> refine ⟨?_, ?_, ?_⟩ <;> simp <;> omega

/-- C3 counterexample: a record actually written by `addQueryToHistory`
(write succeeds) carries an IT context list but no IT expert response,
because each debate-flow field is gated by its own truthiness test. -/
theorem C3_counterexample :
    addQueryToHistory [] "id" true "u" "q" "a" PolicyArea.General (Sum.inr [])
        (some ⟨none, none, some ["c"], none⟩) 0
      = Except.ok ([⟨"id", "u", "q", "a", PolicyArea.General, [], some 0,
                    none, none, some ["c"], none⟩], "id")
    ∧ ¬ debateGroupInvariant ⟨"id", "u", "q", "a", PolicyArea.General, [], some 0,
        none, none, some ["c"], none⟩ := by
  constructor
  · rfl
  · decide

/-- C3 (amended): `addQueryToHistory` stores each debate-flow field
independently by truthiness. A missing `debateFlow` argument yields a legacy
record with all four fields absent, and the written record satisfies the
group invariant exactly when the caller's `debateFlow` argument already pairs
each area's fields (expert response truthy iff context list supplied). -/
theorem C3_debate_fields_grouped_when_supplied_grouped
    (userId question answer : String) (pa : PolicyArea)
    (sources : Sum String (List String)) (df : Option DebateFlow)
    (now : Nat) (newId : String) :
    ((buildDocData userId question answer pa sources none now newId).itExpertResponse = none
      ∧ (buildDocData userId question answer pa sources none now newId).hrExpertResponse = none
      ∧ (buildDocData userId question answer pa sources none now newId).itContext = none
      ∧ (buildDocData userId question answer pa sources none now newId).hrContext = none)
    ∧ (debateGroupInvariant (buildDocData userId question answer pa sources df now newId)
      ↔ match df with
        | none => True
        | some d => truthyStr d.itExpertResponse = d.itContext.isSome
            ∧ truthyStr d.hrExpertResponse = d.hrContext.isSome) := by
  refine ⟨⟨rfl, rfl, rfl, rfl⟩, ?_⟩
  cases df with
  | none => simp [debateGroupInvariant, buildDocData]
  | some d =>
    unfold debateGroupInvariant buildDocData
    simp only [ifTruthy_isSome]

/-- C5: the history list returned by `getUserQueryHistory` is sorted in
non-increasing order of the records' `createdAt` keys, where a record lacking
`createdAt` has key 0 (`keyQ`); consequently everything after such a record
also has key 0, i.e. key-0 records sort to the end. -/
theorem C5_history_most_recent_first (st : List QueryRecord) (uid : String) :
    (getUserQueryHistory st uid).Pairwise
      (fun a b => keyQ b ≤ keyQ a ∧ (a.createdAt = none → keyQ b = 0)) := by
  have h : (getUserQueryHistory st uid).Pairwise histR :=
    List.sorted_insertionSort histR (userRecords st uid)
  refine h.imp fun {a b} hab => ⟨hab, fun hn => ?_⟩
  simp only [histR, keyQ, hn, Option.getD_none] at hab
  simp only [keyQ]
  omega

/-- C6: every record returned by `getUserQueryHistory st uid` belongs to the
user `uid` — the filter `where('userId', '==', userId)` scopes the history. -/
theorem C6_history_scoped_to_user (st : List QueryRecord) (uid : String)
    (q : QueryRecord) (hq : q ∈ getUserQueryHistory st uid) : q.userId = uid := by
  have hmem : q ∈ userRecords st uid :=
    (List.perm_insertionSort histR (userRecords st uid)).mem_iff.mp hq
  have h2 := List.mem_filter.mp hmem
  simpa using h2.2

/-- Witness for C6 at a concrete one-record store. -/
theorem C6_witness :
    recA ∈ getUserQueryHistory [recA] "u" ∧ recA.userId = "u" :=
  ⟨by decide, C6_history_scoped_to_user [recA] "u" recA (by decide)⟩

/-- C4 counterexample: the spec itself prescribes that whitespace-only input
yields an empty chunk sequence, so for the one-space document the chunk-length
sum falls below the document length and the space character appears in no
chunk — the claim as stated (quantified over every document) fails. -/
theorem C4_counterexample :
    chunkText [' '] 5 1 = []
    ∧ ((chunkText [' '] 5 1).map List.length).sum < ([' '] : List Char).length
    ∧ ' ' ∈ ([' '] : List Char)
    ∧ ∀ ch ∈ chunkText [' '] 5 1, ' ' ∉ ch := by
  decide

/-- C4 (amended): for every document with at least one non-whitespace
character, chunking with `overlap > 0` loses nothing: the chunk-length sum is
at least the document length, every character of the document appears in some
chunk, and an oversized sentence is hard-split at the `maxLen` character
limit (pieces of length at most `maxLen` whose concatenation is the whole
sentence) rather than dropped. -/
theorem C4_chunker_no_silent_truncation (text : List Char) (maxLen overlap : Nat)
    (_hov : 0 < overlap) (hws : text.all Char.isWhitespace = false) :
    text.length ≤ ((chunkText text maxLen overlap).map List.length).sum
    ∧ (∀ c ∈ text, ∃ ch ∈ chunkText text maxLen overlap, c ∈ ch)
    ∧ (∀ s : List Char, maxLen ≠ 0 →
        (hardSplitOne maxLen s).flatten = s
        ∧ ∀ p ∈ hardSplitOne maxLen s, p.length ≤ maxLen) :=
  ⟨chunkText_sum_ge text maxLen overlap hws,
   fun c hc => chunkText_cover text maxLen overlap hws c hc,
   fun s hm => ⟨hardSplitOne_flatten maxLen s, hardSplitOne_length_le maxLen s hm⟩⟩

/-- Witness for C4 on the document "Hi. World" with maxLen 5, overlap 2. -/
theorem C4_witness :
    (0 < 2 ∧ sampleText.all Char.isWhitespace = false)
    ∧ (sampleText.length ≤ ((chunkText sampleText 5 2).map List.length).sum
      ∧ (∀ c ∈ sampleText, ∃ ch ∈ chunkText sampleText 5 2, c ∈ ch)
      ∧ (∀ s : List Char, 5 ≠ 0 →
          (hardSplitOne 5 s).flatten = s
          ∧ ∀ p ∈ hardSplitOne 5 s, p.length ≤ 5)) :=
  ⟨⟨by decide, by decide⟩,
   C4_chunker_no_silent_truncation sampleText 5 2 (by decide) (by decide)⟩

/-- C7: the stored sources are always a list of filenames: an array argument
is stored unchanged, a non-empty string is wrapped into a one-element list, an
empty string becomes the empty list; and when the backend response has no
sources field, `handleQuery` returns `sources = []`. -/
theorem C7_sources_normalized (u q a : String) (pa : PolicyArea)
    (l : List String) (s : String) (df : Option DebateFlow) (now : Nat) (newId : String)
    (env : Env) (st : List QueryRecord) (r : BackendResponse)
    (hq : q ≠ "") (hu : u ≠ "") (hb : env.backend = BackendOutcome.ok r)
    (hw : env.writeOk = true) (hs : r.sources = none) :
    (buildDocData u q a pa (Sum.inr l) df now newId).sources = l
    ∧ (buildDocData u q a pa (Sum.inl s) df now newId).sources
        = (if s = "" then [] else [s])
    ∧ ∃ res : QueryResult,
        (handleQuery env st (some q) (some u)).state.result = some res
        ∧ res.sources = [] := by
  refine ⟨rfl, ?_, ?_⟩
  · by_cases hse : s = "" <;> simp [buildDocData, normalizeSources, hse]
  · rw [handleQuery_success env st q u r hq hu hb hw]
    exact ⟨_, rfl, by simp [hs]⟩

/-- Witness for C7 at concrete arguments (backend response `respA` has no
sources field). -/
theorem C7_witness :
    ("q" ≠ "" ∧ "u" ≠ "" ∧ envSample.backend = BackendOutcome.ok respA
      ∧ envSample.writeOk = true ∧ respA.sources = none)
    ∧ ((buildDocData "u" "q" "a" PolicyArea.IT (Sum.inr ["x", "y"]) none 3 "n").sources
        = ["x", "y"]
      ∧ (buildDocData "u" "q" "a" PolicyArea.IT (Sum.inl "s") none 3 "n").sources
        = (if "s" = "" then [] else ["s"])
      ∧ ∃ res : QueryResult,
          (handleQuery envSample [] (some "q") (some "u")).state.result = some res
          ∧ res.sources = []) :=
  ⟨by decide,
   C7_sources_normalized "u" "q" "a" PolicyArea.IT ["x", "y"] "s" none 3 "n"
     envSample [] respA (by decide) (by decide) (by decide) (by decide) (by decide)⟩

/-- C8 counterexample: with two records of the same user carrying the same
`createdAt` timestamp, the store may legitimately answer the legacy ordered
query with the tied records in either order, while the current implementation
(stable in-memory sort over the snapshot) returns them in snapshot order —
the two implementations do not return the same ordered list on ties. -/
theorem C8_counterexample :
    legacyGetUserQueryHistorySpec [recA, recB] "u" [recB, recA]
    ∧ (∀ q ∈ userRecords [recA, recB] "u", q.createdAt.isSome = true)
    ∧ [recB, recA] ≠ getUserQueryHistory [recA, recB] "u" := by
  decide

/-- C8 (amended): when the user's records all carry a `createdAt` timestamp
and those timestamps are pairwise distinct, any answer meeting the legacy
ordered-query contract equals the list produced by the current in-memory-sort
implementation — the two implementations are observably equivalent. -/
theorem C8_legacy_current_equivalent (st : List QueryRecord) (uid : String)
    (out : List QueryRecord)
    (_hts : ∀ q ∈ userRecords st uid, q.createdAt.isSome = true)
    (hdist : (userRecords st uid).Pairwise (fun a b => keyQ a ≠ keyQ b))
    (hleg : legacyGetUserQueryHistorySpec st uid out) :
    out = getUserQueryHistory st uid := by
  obtain ⟨hperm, hsort⟩ := hleg
  have hcur_perm : (getUserQueryHistory st uid).Perm (userRecords st uid) :=
    List.perm_insertionSort histR (userRecords st uid)
  have hcur_sort : (getUserQueryHistory st uid).Pairwise histR :=
    List.sorted_insertionSort histR (userRecords st uid)
  have hne_symm : ∀ {x y : QueryRecord}, keyQ x ≠ keyQ y → keyQ y ≠ keyQ x :=
    fun h => h.symm
  have hdist_out : out.Pairwise (fun a b => keyQ a ≠ keyQ b) :=
    (hperm.pairwise_iff hne_symm).mpr hdist
  have hdist_cur : (getUserQueryHistory st uid).Pairwise (fun a b => keyQ a ≠ keyQ b) :=
    (hcur_perm.pairwise_iff hne_symm).mpr hdist
  have hstrict_out : out.Pairwise histRStrict :=
    (hsort.and hdist_out).imp fun {a b} h =>
      show histRStrict a b from lt_of_le_of_ne h.1 (Ne.symm h.2)
  have hstrict_cur : (getUserQueryHistory st uid).Pairwise histRStrict :=
    (hcur_sort.and hdist_cur).imp fun {a b} h =>
      show histRStrict a b from lt_of_le_of_ne h.1 (Ne.symm h.2)
  exact List.eq_of_perm_of_sorted (hperm.trans hcur_perm.symm) hstrict_out hstrict_cur

/-- Witness for C8 at a concrete two-record store with distinct timestamps. -/
theorem C8_witness :
    ((∀ q ∈ userRecords [recC, recA] "u", q.createdAt.isSome = true)
      ∧ (userRecords [recC, recA] "u").Pairwise (fun a b => keyQ a ≠ keyQ b)
      ∧ legacyGetUserQueryHistorySpec [recC, recA] "u" [recA, recC])
    ∧ [recA, recC] = getUserQueryHistory [recC, recA] "u" :=
  ⟨⟨by decide, by decide, by decide⟩,
   C8_legacy_current_equivalent [recC, recA] "u" [recA, recC]
     (by decide) (by decide) (by decide)⟩

/-- C9: the attributed policy area depends on nothing but the two effective
context-list lengths: two successful invocations of `handleQuery` whose
backend responses agree on those lengths return the same `policyArea`,
whatever the questions, user ids, answers or snippet contents are. -/
theorem C9_attribution_noninterference
    (env1 env2 : Env) (st1 st2 : List QueryRecord) (q1 q2 u1 u2 : String)
    (r1 r2 : BackendResponse)
    (hq1 : q1 ≠ "") (hq2 : q2 ≠ "") (hu1 : u1 ≠ "") (hu2 : u2 ≠ "")
    (hb1 : env1.backend = BackendOutcome.ok r1)
    (hb2 : env2.backend = BackendOutcome.ok r2)
    (hw1 : env1.writeOk = true) (hw2 : env2.writeOk = true)
    (hit : itContextLength r1 = itContextLength r2)
    (hhr : hrContextLength r1 = hrContextLength r2) :
    (handleQuery env1 st1 (some q1) (some u1)).state.result.map QueryResult.policyArea
      = (handleQuery env2 st2 (some q2) (some u2)).state.result.map QueryResult.policyArea := by
  rw [handleQuery_success env1 st1 q1 u1 r1 hq1 hu1 hb1 hw1,
      handleQuery_success env2 st2 q2 u2 r2 hq2 hu2 hb2 hw2]
  simp [attributedPolicyArea_eq_of_lengths r1 r2 hit hhr]

/-- Witness for C9: two invocations with different questions, users, answers
and snippet texts but equal context-list lengths (IT 2, HR 1). -/
theorem C9_witness :
    ("ask one" ≠ "" ∧ "another ask" ≠ "" ∧ "user1" ≠ "" ∧ "user2" ≠ ""
      ∧ envIT1.backend = BackendOutcome.ok respIT1
      ∧ envIT2.backend = BackendOutcome.ok respIT2
      ∧ envIT1.writeOk = true ∧ envIT2.writeOk = true
      ∧ itContextLength respIT1 = itContextLength respIT2
      ∧ hrContextLength respIT1 = hrContextLength respIT2)
    ∧ (handleQuery envIT1 [] (some "ask one") (some "user1")).state.result.map QueryResult.policyArea
      = (handleQuery envIT2 [recA] (some "another ask") (some "user2")).state.result.map QueryResult.policyArea :=
  ⟨by decide,
   C9_attribution_noninterference envIT1 envIT2 [] [recA] "ask one" "another ask"
     "user1" "user2" respIT1 respIT2 (by decide) (by decide) (by decide) (by decide)
     (by decide) (by decide) (by decide) (by decide) (by decide) (by decide)⟩

/-- C10 counterexample: when both the question and the userId are missing,
`handleQuery` returns the question-validation error, not the login error, so
the claim's second universal clause fails as stated at this input (validation
still precedes any side effect: no backend call, store unchanged). -/
theorem C10_counterexample :
    (handleQuery envSample [] none none).state.error = some "Please enter a question."
    ∧ (handleQuery envSample [] none none).state.error
        ≠ some "You must be logged in to ask a question."
    ∧ (handleQuery envSample [] none none).backendCalled = false
    ∧ (handleQuery envSample [] none none).store = [] := by
  decide

/-- C10 (amended): when the question is empty or missing, or the question is
present but the userId is empty or missing, `handleQuery` returns a null
result with the corresponding validation message (the question check runs
first), issues no backend request, and leaves the history store unchanged. -/
theorem C10_validation_before_side_effects (env : Env) (st : List QueryRecord)
    (question userId : Option String)
    (h : truthyStr question = false ∨ truthyStr userId = false) :
    handleQuery env st question userId =
      { state :=
          { result := none
            error := some (if truthyStr question = false
              then "Please enter a question."
              else "You must be logged in to ask a question.") }
        backendCalled := false
        store := st } := by
  rcases h with h | h
  · simp [handleQuery, h]
  · by_cases hq : truthyStr question = false
    · simp [handleQuery, hq]
    · simp [handleQuery, hq, h]

/-- Witness for C10: empty question with a logged-in user. -/
theorem C10_witness :
    (truthyStr (some "") = false ∨ truthyStr (some "u") = false)
    ∧ handleQuery envSample [recA] (some "") (some "u") =
      { state :=
          { result := none
            error := some (if truthyStr (some "") = false
              then "Please enter a question."
              else "You must be logged in to ask a question.") }
        backendCalled := false
        store := [recA] } :=
  ⟨Or.inl (by decide),
   C10_validation_before_side_effects envSample [recA] (some "") (some "u")
     (Or.inl (by decide))⟩
